import Mathlib

/-!
Verification of the feature-engineering repository (calendar event tagger,
grouped time-series feature engine, external join adapters) against its
natural-language specification.  Tables are modelled as lists of rows,
pandas timestamps as calendar dates (the data model declares dates have no
time-of-day semantics), and the sales column as exact rationals.
-/

/-- A calendar date (proleptic Gregorian), as produced by pd.to_datetime on
a date string: year, month (1-12), day (1-31). -/
structure Date where
  year : Nat
  month : Nat
  day : Nat
deriving DecidableEq, Repr

/-- Timestamp comparison a ≤ b, i.e. lexicographic order on (year, month, day). -/
def dateLeB (a b : Date) : Bool :=
  a.year < b.year ||
    (a.year == b.year &&
      (a.month < b.month || (a.month == b.month && a.day ≤ b.day)))

/-- Timestamp comparison a < b, lexicographic on (year, month, day). -/
def dateLtB (a b : Date) : Bool :=
  a.year < b.year ||
    (a.year == b.year &&
      (a.month < b.month || (a.month == b.month && a.day < b.day)))

/-- Gregorian leap-year test. -/
def isLeap (y : Nat) : Bool :=
  (y % 4 == 0 && y % 100 != 0) || y % 400 == 0

/-- Number of days in a month of a given year. -/
def daysInMonth (y m : Nat) : Nat :=
  if m == 2 then (if isLeap y then 29 else 28)
  else if m == 4 || m == 6 || m == 9 || m == 11 then 30
  else 31

/-- Days strictly before month m in a year with the given leap flag. -/
def daysBeforeMonth (m : Nat) (leap : Bool) : Nat :=
  let base :=
    if m == 1 then 0 else if m == 2 then 31 else if m == 3 then 59
    else if m == 4 then 90 else if m == 5 then 120 else if m == 6 then 151
    else if m == 7 then 181 else if m == 8 then 212 else if m == 9 then 243
    else if m == 10 then 273 else if m == 11 then 304 else 334
  if leap && m ≥ 3 then base + 1 else base

/-- Ordinal day number of a date, counting 0001-01-01 as day 1
(proleptic Gregorian). -/
def dayNumber (d : Date) : Nat :=
  365 * (d.year - 1) + (d.year - 1) / 4 - (d.year - 1) / 100 + (d.year - 1) / 400
    + daysBeforeMonth d.month (isLeap d.year) + d.day

/-- Weekday with Monday = 0 .. Sunday = 6, like pandas Timestamp.weekday.
0001-01-01 (day number 1) was a Monday. -/
def weekday (d : Date) : Nat :=
  (dayNumber d + 6) % 7

/-- The calendar day after d (with month and year rollover). -/
def nextDay (d : Date) : Date :=
  if d.day < daysInMonth d.year d.month then ⟨d.year, d.month, d.day + 1⟩
  else if d.month < 12 then ⟨d.year, d.month + 1, 1⟩
  else ⟨d.year + 1, 1, 1⟩

/-- The date n days after d, modelling date + pd.Timedelta(days=n). -/
def addDays (d : Date) (n : Nat) : Date :=
  Nat.iterate nextDay n d

/-- The hardcoded Ramadan Gregorian ranges of add_is_ramadan_feature
(time_calendar.py), one closed range per entry, years 2020-2035. -/
def calendar_ramadan_ranges : List (Date × Date) :=
  [ (⟨2020, 4, 24⟩, ⟨2020, 5, 23⟩),
    (⟨2021, 4, 13⟩, ⟨2021, 5, 12⟩),
    (⟨2022, 4, 2⟩, ⟨2022, 5, 1⟩),
    (⟨2023, 3, 23⟩, ⟨2023, 4, 21⟩),
    (⟨2024, 3, 10⟩, ⟨2024, 4, 9⟩),
    (⟨2025, 2, 28⟩, ⟨2025, 3, 29⟩),
    (⟨2026, 2, 17⟩, ⟨2026, 3, 18⟩),
    (⟨2027, 2, 7⟩, ⟨2027, 3, 8⟩),
    (⟨2028, 1, 27⟩, ⟨2028, 2, 25⟩),
    (⟨2029, 1, 15⟩, ⟨2029, 2, 13⟩),
    (⟨2030, 1, 5⟩, ⟨2030, 2, 3⟩),
    (⟨2030, 12, 26⟩, ⟨2031, 1, 24⟩),
    (⟨2031, 12, 15⟩, ⟨2032, 1, 13⟩),
    (⟨2032, 12, 3⟩, ⟨2033, 1, 1⟩),
    (⟨2033, 11, 23⟩, ⟨2033, 12, 22⟩),
    (⟨2034, 11, 11⟩, ⟨2034, 12, 10⟩),
    (⟨2035, 11, 1⟩, ⟨2035, 11, 30⟩) ]

/-- The Eid al-Fitr ranges of add_is_eid_fitr_feature (time_calendar.py). -/
def eid_fitr_ranges : List (Date × Date) :=
  [ (⟨2020, 5, 24⟩, ⟨2020, 5, 26⟩),
    (⟨2021, 5, 13⟩, ⟨2021, 5, 15⟩),
    (⟨2022, 5, 2⟩, ⟨2022, 5, 4⟩),
    (⟨2023, 4, 21⟩, ⟨2023, 4, 23⟩),
    (⟨2024, 4, 10⟩, ⟨2024, 4, 12⟩),
    (⟨2025, 3, 30⟩, ⟨2025, 4, 1⟩),
    (⟨2026, 3, 19⟩, ⟨2026, 3, 21⟩),
    (⟨2027, 3, 9⟩, ⟨2027, 3, 11⟩),
    (⟨2028, 2, 26⟩, ⟨2028, 2, 28⟩),
    (⟨2029, 2, 14⟩, ⟨2029, 2, 16⟩),
    (⟨2030, 2, 4⟩, ⟨2030, 2, 6⟩),
    (⟨2031, 1, 25⟩, ⟨2031, 1, 27⟩),
    (⟨2032, 1, 14⟩, ⟨2032, 1, 16⟩),
    (⟨2033, 1, 2⟩, ⟨2033, 1, 4⟩),
    (⟨2033, 12, 23⟩, ⟨2033, 12, 25⟩),
    (⟨2034, 12, 11⟩, ⟨2034, 12, 13⟩),
    (⟨2035, 12, 1⟩, ⟨2035, 12, 3⟩) ]

/-- The Eid al-Adha ranges of add_is_eid_adha_feature (time_calendar.py). -/
def eid_adha_ranges : List (Date × Date) :=
  [ (⟨2020, 7, 31⟩, ⟨2020, 8, 3⟩),
    (⟨2021, 7, 20⟩, ⟨2021, 7, 23⟩),
    (⟨2022, 7, 9⟩, ⟨2022, 7, 12⟩),
    (⟨2023, 6, 28⟩, ⟨2023, 7, 1⟩),
    (⟨2024, 6, 16⟩, ⟨2024, 6, 19⟩),
    (⟨2025, 6, 6⟩, ⟨2025, 6, 9⟩),
    (⟨2026, 5, 27⟩, ⟨2026, 5, 30⟩),
    (⟨2027, 5, 17⟩, ⟨2027, 5, 20⟩),
    (⟨2028, 5, 5⟩, ⟨2028, 5, 8⟩),
    (⟨2029, 4, 24⟩, ⟨2029, 4, 27⟩),
    (⟨2030, 4, 14⟩, ⟨2030, 4, 17⟩),
    (⟨2031, 4, 4⟩, ⟨2031, 4, 7⟩),
    (⟨2032, 3, 23⟩, ⟨2032, 3, 26⟩),
    (⟨2033, 3, 12⟩, ⟨2033, 3, 15⟩),
    (⟨2034, 3, 1⟩, ⟨2034, 3, 4⟩),
    (⟨2035, 2, 18⟩, ⟨2035, 2, 21⟩) ]

/-- The Great Lent ranges of add_is_great_lent_feature (time_calendar.py). -/
def great_lent_ranges : List (Date × Date) :=
  [ (⟨2020, 2, 24⟩, ⟨2020, 4, 18⟩),
    (⟨2021, 3, 8⟩, ⟨2021, 5, 1⟩),
    (⟨2022, 2, 28⟩, ⟨2022, 4, 23⟩),
    (⟨2023, 3, 6⟩, ⟨2023, 4, 15⟩),
    (⟨2024, 3, 18⟩, ⟨2024, 5, 11⟩),
    (⟨2025, 3, 3⟩, ⟨2025, 4, 26⟩),
    (⟨2026, 2, 16⟩, ⟨2026, 4, 11⟩),
    (⟨2027, 3, 8⟩, ⟨2027, 5, 1⟩),
    (⟨2028, 2, 21⟩, ⟨2028, 4, 15⟩),
    (⟨2029, 3, 5⟩, ⟨2029, 4, 28⟩),
    (⟨2030, 2, 18⟩, ⟨2030, 4, 13⟩),
    (⟨2031, 3, 10⟩, ⟨2031, 5, 3⟩),
    (⟨2032, 2, 23⟩, ⟨2032, 4, 17⟩),
    (⟨2033, 3, 7⟩, ⟨2033, 4, 30⟩),
    (⟨2034, 2, 20⟩, ⟨2034, 4, 15⟩),
    (⟨2035, 3, 5⟩, ⟨2035, 4, 28⟩) ]

/-- Membership of a date in any closed range of a table, computed the way the
source does: the column starts at False and each range's mask sets it to True
when start ≤ d and d ≤ end (a fold over the ranges). -/
def inAnyRange (t : List (Date × Date)) (d : Date) : Bool :=
  t.foldl (fun acc se => if dateLeB se.1 d && dateLeB d se.2 then true else acc) false

/-- Per-date value of the is_ramadan column (add_is_ramadan_feature). -/
def is_ramadan (d : Date) : Bool := inAnyRange calendar_ramadan_ranges d

/-- Per-date value of the is_eid_fitr column (add_is_eid_fitr_feature). -/
def is_eid_fitr (d : Date) : Bool := inAnyRange eid_fitr_ranges d

/-- Per-date value of the is_eid_adha column (add_is_eid_adha_feature). -/
def is_eid_adha (d : Date) : Bool := inAnyRange eid_adha_ranges d

/-- Per-date value of the is_great_lent column (add_is_great_lent_feature). -/
def is_great_lent (d : Date) : Bool := inAnyRange great_lent_ranges d

/-- Per-date value of the retail_event column, translated from
get_retail_event in add_retail_event_feature (time_calendar.py).  The nested
if mirrors the early returns: a November Friday whose next week is still in
November falls through to the back-to-school test and then to the default. -/
def get_retail_event (d : Date) : String :=
  if d.month == 12 then "christmas_dec"
  else if d.month == 1 && d.day == 7 then "coptic_christmas"
  else if d.month == 2 && d.day == 14 then "valentines"
  else if d.month == 3 && d.day == 21 then "mothers_day"
  else if d.month == 11 && weekday d == 4 then
    (if (addDays d 7).month != 11 then "black_friday"
     else if d.month == 8 && 15 ≤ d.day && d.day ≤ 31 then "back_to_school"
     else "none")
  else if d.month == 8 && 15 ≤ d.day && d.day ≤ 31 then "back_to_school"
  else "none"

/-- Modelled from the spec: the rule list of the retail_event claim, in its
stated first-match priority order. -/
def retailRules : List ((Date → Bool) × String) :=
  [ (fun d => d.month == 12, "christmas_dec"),
    (fun d => d.month == 1 && d.day == 7, "coptic_christmas"),
    (fun d => d.month == 2 && d.day == 14, "valentines"),
    (fun d => d.month == 3 && d.day == 21, "mothers_day"),
    (fun d => d.month == 11 && weekday d == 4 && (addDays d 7).month != 11,
      "black_friday"),
    (fun d => d.month == 8 && 15 ≤ d.day && d.day ≤ 31, "back_to_school") ]

/-- First rule of the list whose test holds determines the label; default
label is none. -/
def firstMatch : List ((Date → Bool) × String) → Date → String
  | [], _ => "none"
  | rule :: rs, d => if rule.1 d then rule.2 else firstMatch rs d

/-- Modelled from the spec: the retail_event value the claim describes,
first-match evaluation of the priority rule list. -/
def retail_event_spec (d : Date) : String := firstMatch retailRules d

/-- A transaction row: Store No_, Item No_, Date, Net Amount.  The sales
amount is modelled as an exact rational. -/
structure Row where
  store : Nat
  item : Nat
  date : Date
  sales : Rat
deriving DecidableEq, Repr

/-- Strict lexicographic order on the sort key (Store No_, Item No_, Date)
used by sort_values(by=group_cols + [date_col]). -/
def keyLt (a b : Row) : Bool :=
  a.store < b.store ||
    (a.store == b.store &&
      (a.item < b.item || (a.item == b.item && dateLtB a.date b.date)))

/-- Reflexive lexicographic order on the sort key (Store No_, Item No_, Date). -/
def keyLe (a b : Row) : Bool :=
  a.store < b.store ||
    (a.store == b.store &&
      (a.item < b.item || (a.item == b.item && dateLeB a.date b.date)))

/-- Stable insertion of a row: x passes over strictly smaller keys and lands
in front of the first row whose key is ≥ its own, so among equal keys the
element inserted later (which came earlier in the input) stays first. -/
def insertRow (x : Row) : List Row → List Row
  | [] => [x]
  | y :: ys => if keyLt y x then y :: insertRow x ys else x :: y :: ys

/-- The stable sort by (Store No_, Item No_, Date) performed by
df.sort_values(by=group_cols + [date_col]): pandas multi-key sorts use a
stable lexicographic sort, whose output is uniquely determined by being a
sorted, stable permutation of the input; this structurally recursive stable
insertion sort computes exactly that output. -/
def sortRows : List Row → List Row
  | [] => []
  | x :: xs => insertRow x (sortRows xs)

/-- Two rows fall in the same groupby group (same Store No_ and Item No_). -/
def sameGroupB (a b : Row) : Bool :=
  a.store == b.store && a.item == b.item

/-- A row belongs to the (store, item) group. -/
def gqB (s it : Nat) (r : Row) : Bool :=
  r.store == s && r.item == it

/-- The rows of one groupby group, in frame order. -/
def groupRows (l : List Row) (s it : Nat) : List Row :=
  l.filter (gqB s it)

/-- The value column of one groupby group, in frame order. -/
def groupVals (l : List Row) (s it : Nat) : List Rat :=
  (groupRows l s it).map Row.sales

/-- The value column of the group a given row belongs to. -/
def groupValsOf (l : List Row) (r : Row) : List Rat :=
  (l.filter (fun q => sameGroupB q r)).map Row.sales

/-- Kernel of x.rolling(window=n, min_periods=1).mean(): at position i the
arithmetic mean of the trailing row-count window of the last at most n
values (positions i+1-n .. i, truncated at 0); with min_periods=1 every
position yields a value. -/
def rollingMeanK (n : Nat) (xs : List Rat) : List (Option Rat) :=
  (List.range xs.length).map (fun i =>
    let w := (xs.take (i + 1)).drop (i + 1 - n)
    some (w.sum / (w.length : Rat)))

/-- Kernel of x.rolling(window=n, min_periods=1).std() up to squaring: the
value stored is the sample variance (ddof = 1), i.e. the square of the
standard deviation the code computes.  Squaring preserves the only two
aspects the specification states about this column: a window of a single
observation yields a missing value (0/0 in the code, none here), and the
standard deviation is zero exactly when the variance is zero. -/
def sampleVarK (n : Nat) (xs : List Rat) : List (Option Rat) :=
  (List.range xs.length).map (fun i =>
    let w := (xs.take (i + 1)).drop (i + 1 - n)
    if w.length ≤ 1 then none
    else
      some (((w.map (fun x => (x - w.sum / (w.length : Rat)) ^ 2)).sum)
        / ((w.length - 1 : Nat) : Rat)))

/-- Kernel of groupby(...).shift(n): position i takes the value n rows
earlier in the same group, missing for the first n positions. -/
def shiftK (n : Nat) (xs : List Rat) : List (Option Rat) :=
  (List.range xs.length).map (fun i =>
    if i < n then none else some (xs.getD (i - n) 0))

/-- Helper of scatter: walks the remaining rows, pairing each row with its
group kernel output at the row's ordinal inside its group (the number of
same-group rows already passed, kept in pre). -/
def scatterAux (f : List Rat → List (Option Rat)) (all : List Row)
    (pre : List Row) : List Row → List (Row × Option Rat)
  | [] => []
  | r :: rs =>
      (r, (f (groupValsOf all r)).getD
            ((pre.filter (fun q => sameGroupB q r)).length) none)
        :: scatterAux f all (pre ++ [r]) rs

/-- Model of groupby(group_cols)[value_col].transform(f): each row receives
the element of f applied to its group's value column at the row's ordinal
within the group. -/
def scatter (f : List Rat → List (Option Rat)) (l : List Row) :
    List (Row × Option Rat) :=
  scatterAux f l [] l

/-- add_rolling_avg_sales_7d (sales.py): sort by (store, item, date), then
per group the trailing 7-observation rolling mean. -/
def add_rolling_avg_sales_7d (rows : List Row) : List (Row × Option Rat) :=
  scatter (rollingMeanK 7) (sortRows rows)

/-- add_rolling_avg_sales_15d (sales.py). -/
def add_rolling_avg_sales_15d (rows : List Row) : List (Row × Option Rat) :=
  scatter (rollingMeanK 15) (sortRows rows)

/-- add_rolling_avg_sales_30d (sales.py). -/
def add_rolling_avg_sales_30d (rows : List Row) : List (Row × Option Rat) :=
  scatter (rollingMeanK 30) (sortRows rows)

/-- add_sales_lag_1d (sales.py): sort, then per-group shift by 1. -/
def add_sales_lag_1d (rows : List Row) : List (Row × Option Rat) :=
  scatter (shiftK 1) (sortRows rows)

/-- add_sales_lag_7d (sales.py): sort, then per-group shift by 7. -/
def add_sales_lag_7d (rows : List Row) : List (Row × Option Rat) :=
  scatter (shiftK 7) (sortRows rows)

/-- add_last_year_same_period_sales (sales.py): sort, then per-group shift
by 365. -/
def add_last_year_same_period_sales (rows : List Row) : List (Row × Option Rat) :=
  scatter (shiftK 365) (sortRows rows)

/-- add_std_dev_sales_15d (sales.py), with the column holding the square of
the code's sample standard deviation (see sampleVarK). -/
def add_std_dev_sales_15d_sq (rows : List Row) : List (Row × Option Rat) :=
  scatter (sampleVarK 15) (sortRows rows)

/-- The default ramadan_ranges of add_total_sales_last_ramadan (sales.py),
a 12-entry table distinct from calendar_ramadan_ranges. -/
def sales_ramadan_ranges : List (Date × Date) :=
  [ (⟨2024, 3, 10⟩, ⟨2024, 4, 8⟩),
    (⟨2025, 2, 28⟩, ⟨2025, 3, 30⟩),
    (⟨2026, 2, 18⟩, ⟨2026, 3, 19⟩),
    (⟨2027, 2, 7⟩, ⟨2027, 3, 8⟩),
    (⟨2028, 1, 27⟩, ⟨2028, 2, 25⟩),
    (⟨2029, 1, 15⟩, ⟨2029, 2, 13⟩),
    (⟨2030, 1, 5⟩, ⟨2030, 2, 3⟩),
    (⟨2031, 12, 26⟩, ⟨2032, 1, 24⟩),
    (⟨2032, 12, 14⟩, ⟨2033, 1, 12⟩),
    (⟨2033, 12, 4⟩, ⟨2034, 1, 2⟩),
    (⟨2034, 11, 23⟩, ⟨2034, 12, 22⟩),
    (⟨2035, 11, 12⟩, ⟨2035, 12, 11⟩) ]

/-- The concatenated ramadan_df of add_total_sales_last_ramadan: for each
range in order, the rows of df inside the closed range, each tagged with the
range's anchor year (the year of its start date). -/
def ramadanObs (ranges : List (Date × Date)) (rows : List Row) :
    List (Row × Nat) :=
  ranges.flatMap (fun se =>
    (rows.filter (fun r => dateLeB se.1 r.date && dateLeB r.date se.2)).map
      (fun r => (r, se.1.year)))

/-- Grouping key test of ramadan_sum: (Store No_, Item No_, ramadan_year). -/
def ramadanKeyB (s it y : Nat) (p : Row × Nat) : Bool :=
  p.1.store == s && p.1.item == it && p.2 == y

/-- The ramadan_sum value for one (store, item, ramadan_year) key: the sum
of the sales column over the tagged observations with that key. -/
def ramadan_sum (ranges : List (Date × Date)) (rows : List Row)
    (s it y : Nat) : Rat :=
  (((ramadanObs ranges rows).filter (ramadanKeyB s it y)).map
    (fun p => p.1.sales)).sum

/-- Whether the (store, item, ramadan_year) key occurs in ramadan_df at all;
groupby only produces keys that occur, and the left merge leaves NaN for the
rest. -/
def has_ramadan_key (ranges : List (Date × Date)) (rows : List Row)
    (s it y : Nat) : Bool :=
  (ramadanObs ranges rows).any (ramadanKeyB s it y)

/-- add_total_sales_last_ramadan (sales.py): left-merge the per-(group,
anchor-year) Ramadan sums back onto the frame, keyed by (store, item,
calendar year of the row's own date). -/
def add_total_sales_last_ramadan (ranges : List (Date × Date))
    (rows : List Row) : List (Row × Option Rat) :=
  rows.map (fun r =>
    (r, if has_ramadan_key ranges rows r.store r.item r.date.year
        then some (ramadan_sum ranges rows r.store r.item r.date.year)
        else none))

/-- Membership of a date in some range of the table anchored at year y. -/
def inAnchoredRange (ranges : List (Date × Date)) (d : Date) (y : Nat) : Bool :=
  ranges.any (fun se => se.1.year == y && dateLeB se.1 d && dateLeB d se.2)

/-- Sum of the sales column over the rows of a group whose date lies in some
range of the table anchored at year y — the per-(group, anchor-year) total
the specification describes. -/
def groupAnchorSum (ranges : List (Date × Date)) (rows : List Row)
    (s it y : Nat) : Rat :=
  ((rows.filter (fun r =>
      r.store == s && r.item == it && inAnchoredRange ranges r.date y)).map
    Row.sales).sum

/-- Exact-date FX lookup: the first FX row with the given date, if any. -/
def lookupFx (fx : List (Date × Rat)) (d : Date) : Option Rat :=
  (fx.find? (fun p => p.1 == d)).map Prod.snd

/-- The left merge of add_fx_rate (maco_economic.py): every transaction row
is kept in order; a row with exact-date matches is repeated once per match
carrying that match's rate, a row with none carries a missing value.
Transaction rows are modelled by their dates, the only field the adapter
reads. -/
def mergeFx (dfDates : List Date) (fx : List (Date × Rat)) :
    List (Date × Option Rat) :=
  dfDates.flatMap (fun d =>
    let ms := fx.filter (fun p => p.1 == d)
    if ms.isEmpty then [(d, none)] else ms.map (fun p => (d, some p.2)))

/-- fillna(method=ffill) on the merged column: walk the rows in frame order
carrying the last non-missing value forward. -/
def ffillCol (acc : Option Rat) : List (Date × Option Rat) → List (Date × Option Rat)
  | [] => []
  | (d, v) :: rest =>
    match v with
    | some r => (d, some r) :: ffillCol (some r) rest
    | none => (d, acc) :: ffillCol acc rest

/-- add_fx_rate (maco_economic.py): left join on exact date equality, then
forward-fill the joined column in frame order. -/
def add_fx_rate (dfDates : List Date) (fx : List (Date × Rat)) :
    List (Date × Option Rat) :=
  ffillCol none (mergeFx dfDates fx)

/-- The rate carried by the last row (in frame order) of a date list that
has an exact FX match, if any — what forward-filling leaves on the row after
the list. -/
def lastMatchedRate (fx : List (Date × Rat)) (dates : List Date) : Option Rat :=
  dates.foldl (fun a d =>
    match lookupFx fx d with
    | some r => some r
    | none => a) none

/-- Column-name effect of assigning df[c] = ... in pandas: appends the
column if new, otherwise overwrites in place. -/
def setCol (cols : List String) (c : String) : List String :=
  if c ∈ cols then cols else cols ++ [c]

/-- Column-name effect of df.drop(columns=cs, errors=ignore). -/
def dropCols (cols cs : List String) : List String :=
  cols.filter (fun c => !cs.contains c)

/-- Column-name effect shared by every single-assignment feature operation
of time_calendar.py (add_day_of_week_feature, add_week_of_year_feature,
add_month_feature, add_is_weekend_feature, add_is_start_of_month_feature,
add_is_end_of_month_feature, add_is_ramadan_feature, add_is_eid_fitr_feature,
add_is_eid_adha_feature, add_is_great_lent_feature, is_national_holiday,
add_season_feature, add_retail_event_feature) and of the sort-then-assign
operations of sales.py (the three rolling averages, the three lags and the
rolling standard deviation): the body copies df and performs the single
assignment df[new_col] = ... . -/
def feature_op_cols (cols : List String) (newCol : String) : List String :=
  setCol cols newCol

/-- Column-name effect of add_total_sales_last_ramadan (sales.py): assign
the helper column year, merge (which appends ramadan_year and the new
column; the model assumes the merge itself creates no suffixed duplicates,
i.e. ramadan_year and the new column are not already present), then drop
year and ramadan_year. -/
def total_sales_last_ramadan_cols (cols : List String) (newCol : String) :
    List String :=
  dropCols (setCol cols "year" ++ ["ramadan_year", newCol])
    ["year", "ramadan_year"]

/-- The ten-row single-group scenario of the specification: store 1,
item 100, 2024-01-01 .. 2024-01-10, sales 10,10,10,10,10,10,10,20,20,20. -/
def scenarioRows : List Row :=
  [ ⟨1, 100, ⟨2024, 1, 1⟩, 10⟩,
    ⟨1, 100, ⟨2024, 1, 2⟩, 10⟩,
    ⟨1, 100, ⟨2024, 1, 3⟩, 10⟩,
    ⟨1, 100, ⟨2024, 1, 4⟩, 10⟩,
    ⟨1, 100, ⟨2024, 1, 5⟩, 10⟩,
    ⟨1, 100, ⟨2024, 1, 6⟩, 10⟩,
    ⟨1, 100, ⟨2024, 1, 7⟩, 10⟩,
    ⟨1, 100, ⟨2024, 1, 8⟩, 20⟩,
    ⟨1, 100, ⟨2024, 1, 9⟩, 20⟩,
    ⟨1, 100, ⟨2024, 1, 10⟩, 20⟩ ]

example : weekday ⟨2024, 11, 29⟩ = 4 := by decide
example : weekday ⟨2024, 1, 1⟩ = 0 := by decide
example : weekday ⟨2020, 5, 1⟩ = 4 := by decide
example : get_retail_event ⟨2024, 11, 29⟩ = "black_friday" := by decide
example : get_retail_event ⟨2024, 11, 22⟩ = "none" := by decide
example : is_ramadan ⟨2024, 3, 15⟩ = true := by decide
example : is_ramadan ⟨2024, 5, 1⟩ = false := by decide

theorem keyLe_trans {a b c : Row} (h1 : keyLe a b = true)
    (h2 : keyLe b c = true) : keyLe a c = true := by
  simp only [keyLe, dateLeB, Bool.or_eq_true, Bool.and_eq_true,
    decide_eq_true_eq, beq_iff_eq] at h1 h2 ⊢
  omega

theorem keyLe_of_keyLt {a b : Row} (h : keyLt a b = true) : keyLe a b = true := by
  simp only [keyLt, keyLe, dateLeB, dateLtB, Bool.or_eq_true, Bool.and_eq_true,
    decide_eq_true_eq, beq_iff_eq] at h ⊢
  omega

theorem keyLe_of_not_keyLt {a b : Row} (h : ¬ keyLt a b = true) :
    keyLe b a = true := by
  simp only [keyLt, keyLe, dateLeB, dateLtB, Bool.or_eq_true, Bool.and_eq_true,
    decide_eq_true_eq, beq_iff_eq] at h ⊢
  omega

theorem keyLt_false_of_same_key {a b : Row} (hs : a.store = b.store)
    (hi : a.item = b.item) (hd : a.date = b.date) : keyLt a b = false := by
  cases hk : keyLt a b with
  | false => rfl
  | true =>
    exfalso
    simp only [keyLt, dateLtB, hs, hi, hd, Bool.or_eq_true, Bool.and_eq_true,
      decide_eq_true_eq, beq_iff_eq] at hk
    omega

theorem insertRow_perm (x : Row) (l : List Row) :
    (insertRow x l).Perm (x :: l) := by
  induction l with
  | nil => simp [insertRow]
  | cons y ys ih =>
    rw [insertRow]
    by_cases h : keyLt y x = true
    · simp only [h, if_true]
      exact (ih.cons y).trans (List.Perm.swap x y ys)
    · simp [h]

theorem sortRows_perm (l : List Row) : (sortRows l).Perm l := by
  induction l with
  | nil => simp [sortRows]
  | cons x xs ih =>
    rw [sortRows]
    exact (insertRow_perm x (sortRows xs)).trans (ih.cons x)

theorem pairwise_insertRow {x : Row} {l : List Row}
    (h : l.Pairwise (fun a b => keyLe a b = true)) :
    (insertRow x l).Pairwise (fun a b => keyLe a b = true) := by
  induction l with
  | nil => simp [insertRow]
  | cons y ys ih =>
    rw [List.pairwise_cons] at h
    rw [insertRow]
    cases hlt : keyLt y x with
    | true =>
      simp only [hlt, if_true, List.pairwise_cons]
      refine ⟨?_, ih h.2⟩
      intro z hz
      rcases List.mem_cons.mp ((insertRow_perm x ys).mem_iff.mp hz) with hz' | hz'
      · cases hz'
        exact keyLe_of_keyLt hlt
      · exact h.1 z hz'
    | false =>
      simp only [hlt, Bool.false_eq_true, if_false, List.pairwise_cons]
      have hyx : keyLe x y = true :=
        keyLe_of_not_keyLt (by simp [hlt])
      refine ⟨?_, ?_, h.2⟩
      · intro z hz
        rcases List.mem_cons.mp hz with hz' | hz'
        · cases hz'
          exact hyx
        · exact keyLe_trans hyx (h.1 z hz')
      · exact h.1

theorem sortRows_sorted (l : List Row) :
    (sortRows l).Pairwise (fun a b => keyLe a b = true) := by
  induction l with
  | nil => simp [sortRows]
  | cons x xs ih => exact pairwise_insertRow ih

theorem filter_insertRow {p : Row → Bool}
    (hp : ∀ a b, p a = true → p b = true → keyLt a b = false)
    (x : Row) (l : List Row) :
    (insertRow x l).filter p = if p x then x :: l.filter p else l.filter p := by
  induction l with
  | nil =>
    rw [insertRow]
    cases hx : p x <;> simp [List.filter, hx]
  | cons y ys ih =>
    rw [insertRow]
    cases hlt : keyLt y x with
    | true =>
      simp only [hlt, if_true]
      cases hx : p x with
      | true =>
        cases hy : p y with
        | true => exact absurd (hp y x hy hx) (by simp [hlt])
        | false => simp [List.filter, hy, ih, hx]
      | false =>
        cases hy : p y <;> simp [List.filter, hy, ih, hx]
    | false =>
      simp only [hlt, Bool.false_eq_true, if_false]
      cases hx : p x <;> cases hy : p y <;> simp [List.filter, hy, hx]

theorem filter_sortRows {p : Row → Bool}
    (hp : ∀ a b, p a = true → p b = true → keyLt a b = false)
    (l : List Row) : (sortRows l).filter p = l.filter p := by
  induction l with
  | nil => rfl
  | cons x xs ih =>
    rw [sortRows, filter_insertRow hp, ih]
    cases hx : p x <;> simp [List.filter, hx]

/-- C3: before any rolling or lag column is computed, the grouped engine
evaluates rows sorted with a stable sort: the sorted table is a permutation
of the input, each (store, item) group's rows appear in ascending date
order, and the rows sharing one full (store, item, date) key keep exactly
their original relative order (the subsequence of rows with any fixed key is
unchanged by the sort). -/
theorem c3_sort_stable (rows : List Row) :
    (sortRows rows).Perm rows
    ∧ (∀ s it, ((sortRows rows).filter (gqB s it)).Pairwise
        (fun a b => dateLeB a.date b.date = true))
    ∧ (∀ s it (d : Date),
        (sortRows rows).filter (fun r => gqB s it r && (r.date == d))
          = rows.filter (fun r => gqB s it r && (r.date == d))) := by
  refine ⟨sortRows_perm rows, ?_, ?_⟩
  · intro s it
    have hs : ((sortRows rows).filter (gqB s it)).Pairwise
        (fun a b => keyLe a b = true) :=
      List.Pairwise.sublist (List.filter_sublist _) (sortRows_sorted rows)
    refine hs.imp_of_mem ?_
    intro a b ha hb hab
    have ha' := (List.mem_filter.mp ha).2
    have hb' := (List.mem_filter.mp hb).2
    simp only [gqB, Bool.and_eq_true, beq_iff_eq] at ha' hb'
    simp only [keyLe, dateLeB, Bool.or_eq_true, Bool.and_eq_true,
      decide_eq_true_eq, beq_iff_eq] at hab ⊢
    omega
  · intro s it d
    refine filter_sortRows ?_ rows
    intro a b ha hb
    simp only [gqB, Bool.and_eq_true, beq_iff_eq] at ha hb
    exact keyLt_false_of_same_key (by omega) (by omega)
      (ha.2.trans hb.2.symm)

theorem inAnyRange_foldl (t : List (Date × Date)) (d : Date) (acc : Bool) :
    t.foldl (fun acc se => if dateLeB se.1 d && dateLeB d se.2 then true else acc) acc
      = (acc || t.any (fun se => dateLeB se.1 d && dateLeB d se.2)) := by
  induction t generalizing acc with
  | nil => simp
  | cons se rest ih =>
    rw [List.foldl_cons, List.any_cons, ih]
    cases h : dateLeB se.1 d && dateLeB d se.2 <;> simp [h]

theorem inAnyRange_iff (t : List (Date × Date)) (d : Date) :
    inAnyRange t d = true
      ↔ ∃ se ∈ t, dateLeB se.1 d = true ∧ dateLeB d se.2 = true := by
  rw [inAnyRange, inAnyRange_foldl]
  simp [List.any_eq_true]

/-- C5: each of the four holiday features is true exactly when the date lies
in some closed range of its own table (start ≤ date and date ≤ end, both
endpoints inclusive, compared as calendar dates), and a date outside every
range of a table yields that feature's default value false — the functions
are total, so no input is an error. -/
theorem c5_holiday_membership (d : Date) :
    (is_ramadan d = true
      ↔ ∃ se ∈ calendar_ramadan_ranges, dateLeB se.1 d = true ∧ dateLeB d se.2 = true)
    ∧ (is_eid_fitr d = true
      ↔ ∃ se ∈ eid_fitr_ranges, dateLeB se.1 d = true ∧ dateLeB d se.2 = true)
    ∧ (is_eid_adha d = true
      ↔ ∃ se ∈ eid_adha_ranges, dateLeB se.1 d = true ∧ dateLeB d se.2 = true)
    ∧ (is_great_lent d = true
      ↔ ∃ se ∈ great_lent_ranges, dateLeB se.1 d = true ∧ dateLeB d se.2 = true)
    ∧ ((∀ se ∈ calendar_ramadan_ranges,
          ¬(dateLeB se.1 d = true ∧ dateLeB d se.2 = true)) → is_ramadan d = false)
    ∧ ((∀ se ∈ eid_fitr_ranges,
          ¬(dateLeB se.1 d = true ∧ dateLeB d se.2 = true)) → is_eid_fitr d = false)
    ∧ ((∀ se ∈ eid_adha_ranges,
          ¬(dateLeB se.1 d = true ∧ dateLeB d se.2 = true)) → is_eid_adha d = false)
    ∧ ((∀ se ∈ great_lent_ranges,
          ¬(dateLeB se.1 d = true ∧ dateLeB d se.2 = true)) → is_great_lent d = false) := by
  have hmk : ∀ (t : List (Date × Date)),
      (∀ se ∈ t, ¬(dateLeB se.1 d = true ∧ dateLeB d se.2 = true)) →
        inAnyRange t d = false := by
    intro t ht
    cases h : inAnyRange t d with
    | false => rfl
    | true =>
      obtain ⟨se, hmem, hse⟩ := (inAnyRange_iff t d).mp h
      exact absurd hse (ht se hmem)
  exact ⟨inAnyRange_iff _ d, inAnyRange_iff _ d, inAnyRange_iff _ d,
    inAnyRange_iff _ d, hmk _, hmk _, hmk _, hmk _⟩

/-- Witness for C5 at the spec's own scenario dates: 2024-05-01 lies outside
every Ramadan range and the feature yields the default false (and, by the
membership equivalence applied at 2024-03-15, a covered date yields true). -/
theorem c5_holiday_membership_witness :
    (∀ se ∈ calendar_ramadan_ranges,
        ¬(dateLeB se.1 ⟨2024, 5, 1⟩ = true ∧ dateLeB ⟨2024, 5, 1⟩ se.2 = true))
    ∧ is_ramadan ⟨2024, 5, 1⟩ = false
    ∧ is_ramadan ⟨2024, 3, 15⟩ = true :=
  ⟨by decide,
   (c5_holiday_membership ⟨2024, 5, 1⟩).2.2.2.2.1 (by decide),
   (c5_holiday_membership ⟨2024, 3, 15⟩).1.mpr
     ⟨(⟨2024, 3, 10⟩, ⟨2024, 4, 9⟩), by decide, by decide, by decide⟩⟩

/-- C2: retail_event agrees everywhere with first-match evaluation of the
priority rule list the specification states; every December date yields
christmas_dec regardless of the later rules; and the function always yields
exactly one of the seven catalogue labels. -/
theorem c2_retail_event_first_match :
    (∀ d : Date, get_retail_event d = retail_event_spec d)
    ∧ (∀ d : Date, d.month = 12 → get_retail_event d = "christmas_dec")
    ∧ (∀ d : Date, get_retail_event d
        ∈ ["christmas_dec", "coptic_christmas", "valentines", "mothers_day",
           "black_friday", "back_to_school", "none"]) := by
  refine ⟨?_, ?_, ?_⟩
  · intro d
    rw [get_retail_event, retail_event_spec, retailRules]
    simp only [firstMatch]
    split_ifs <;> simp_all
  · intro d h
    rw [get_retail_event]
    simp [h]
  · intro d
    rw [get_retail_event]
    split_ifs <;> simp

/-- Witness for C2: December 25 has month 12 and retail_event christmas_dec. -/
theorem c2_retail_event_witness :
    (⟨2025, 12, 25⟩ : Date).month = 12
    ∧ get_retail_event ⟨2025, 12, 25⟩ = "christmas_dec" :=
  ⟨rfl, c2_retail_event_first_match.2.1 ⟨2025, 12, 25⟩ rfl⟩

theorem sameGroupB_congr {s it : Nat} {r : Row} (h : gqB s it r = true) (q : Row) :
    sameGroupB q r = gqB s it q := by
  simp only [gqB, Bool.and_eq_true, beq_iff_eq] at h
  simp [sameGroupB, gqB, h.1, h.2]

theorem groupValsOf_eq {s it : Nat} {r : Row} (h : gqB s it r = true)
    (all : List Row) : groupValsOf all r = groupVals all s it := by
  unfold groupValsOf groupVals groupRows
  rw [List.filter_congr (fun q _ => sameGroupB_congr h q)]

theorem scatterAux_filter (f : List Rat → List (Option Rat)) (all : List Row)
    (s it : Nat) (rs : List Row) : ∀ (pre : List Row),
    (scatterAux f all pre rs).filter (fun p => gqB s it p.1)
      = (List.enumFrom ((pre.filter (gqB s it)).length) (rs.filter (gqB s it))).map
          (fun p => (p.2, (f (groupVals all s it)).getD p.1 none)) := by
  induction rs with
  | nil => intro pre; simp [scatterAux]
  | cons r rs ih =>
    intro pre
    rw [scatterAux, List.filter_cons, List.filter_cons]
    cases hr : gqB s it r with
    | true =>
      simp only [hr, if_true]
      rw [ih (pre ++ [r])]
      rw [groupValsOf_eq hr, List.filter_congr (fun q _ => sameGroupB_congr hr q)]
      have hlen : ((pre ++ [r]).filter (gqB s it)).length
          = (pre.filter (gqB s it)).length + 1 := by
        rw [List.filter_append]
        simp [List.filter, hr]
      rw [hlen]
      simp [List.enumFrom]
    | false =>
      simp only [hr, Bool.false_eq_true, if_false]
      rw [ih (pre ++ [r])]
      have hlen : ((pre ++ [r]).filter (gqB s it)).length
          = (pre.filter (gqB s it)).length := by
        rw [List.filter_append]
        simp [List.filter, hr]
      rw [hlen]

theorem scatter_filter_group (f : List Rat → List (Option Rat)) (l : List Row)
    (s it : Nat) :
    (scatter f l).filter (fun p => gqB s it p.1)
      = (List.enumFrom 0 (groupRows l s it)).map
          (fun p => (p.2, (f (groupVals l s it)).getD p.1 none)) := by
  have h := scatterAux_filter f l s it l []
  simpa [groupRows] using h

theorem scatter_group_get (f : List Rat → List (Option Rat)) (l : List Row)
    (s it i : Nat) :
    ((scatter f l).filter (fun p => gqB s it p.1))[i]?
      = (groupRows l s it)[i]?.map
          (fun r => (r, (f (groupVals l s it)).getD i none)) := by
  rw [scatter_filter_group, List.getElem?_map, List.getElem?_enumFrom]
  cases h : (groupRows l s it)[i]? <;> simp

theorem rollingMeanK_getD (n : Nat) (xs : List Rat) (i : Nat)
    (h : i < xs.length) :
    (rollingMeanK n xs).getD i none
      = some ((((xs.take (i + 1)).drop (i + 1 - n)).sum)
          / ((((xs.take (i + 1)).drop (i + 1 - n)).length : Nat) : Rat)) := by
  rw [rollingMeanK, List.getD_eq_getElem?_getD, List.getElem?_map,
    List.getElem?_range h]
  simp

theorem sampleVarK_getD (n : Nat) (xs : List Rat) (i : Nat)
    (h : i < xs.length) :
    (sampleVarK n xs).getD i none
      = if ((xs.take (i + 1)).drop (i + 1 - n)).length ≤ 1 then none
        else some (((((xs.take (i + 1)).drop (i + 1 - n)).map (fun x =>
              (x - ((xs.take (i + 1)).drop (i + 1 - n)).sum
                / ((((xs.take (i + 1)).drop (i + 1 - n)).length : Nat) : Rat)) ^ 2)).sum)
            / ((((xs.take (i + 1)).drop (i + 1 - n)).length - 1 : Nat) : Rat)) := by
  rw [sampleVarK, List.getD_eq_getElem?_getD, List.getElem?_map,
    List.getElem?_range h]
  simp

theorem shiftK_getD (n : Nat) (xs : List Rat) (i : Nat) (h : i < xs.length) :
    (shiftK n xs).getD i none
      = if i < n then none else some (xs.getD (i - n) 0) := by
  rw [shiftK, List.getD_eq_getElem?_getD, List.getElem?_map,
    List.getElem?_range h]
  simp

theorem drop_take_eq_range'_map (l : List Rat) :
    ∀ (c a : Nat), a + c ≤ l.length →
      (l.drop a).take c = (List.range' a c).map (fun j => l.getD j 0) := by
  intro c
  induction c with
  | zero => intro a _; simp
  | succ c ih =>
    intro a hac
    have ha : a < l.length := by omega
    rw [List.drop_eq_getElem_cons ha, List.take_succ_cons, List.range'_succ,
      List.map_cons, ih (a + 1) (by omega), List.getD_eq_getElem l 0 ha]

theorem window_eq (xs : List Rat) (i n : Nat) (h : i < xs.length) :
    (xs.take (i + 1)).drop (i + 1 - n)
      = (List.range' (i + 1 - n) (min (i + 1) n)).map (fun j => xs.getD j 0) := by
  rw [List.drop_take]
  have heq : (i + 1) - (i + 1 - n) = min (i + 1) n := by omega
  rw [heq]
  exact drop_take_eq_range'_map xs _ _ (by omega)

theorem window_length (xs : List Rat) (i n : Nat) (h : i < xs.length) :
    ((xs.take (i + 1)).drop (i + 1 - n)).length = min (i + 1) n := by
  simp only [List.length_drop, List.length_take]
  omega

theorem keyLt_asymm {a b : Row} (h : keyLt a b = true) : keyLt b a = false := by
  cases hk : keyLt b a with
  | false => rfl
  | true =>
    exfalso
    simp only [keyLt, dateLtB, Bool.or_eq_true, Bool.and_eq_true,
      decide_eq_true_eq, beq_iff_eq] at h hk
    omega

theorem insertRow_of_lt {x : Row} {l : List Row}
    (hx : ∀ y ∈ l, keyLt x y = true) : insertRow x l = x :: l := by
  cases l with
  | nil => rfl
  | cons y ys =>
    rw [insertRow, keyLt_asymm (hx y (List.mem_cons_self y ys))]
    simp

theorem sortRows_of_sorted {l : List Row}
    (h : l.Pairwise (fun a b => keyLt a b = true)) : sortRows l = l := by
  induction l with
  | nil => rfl
  | cons x xs ih =>
    rw [List.pairwise_cons] at h
    rw [sortRows, ih h.2, insertRow_of_lt h.1]

theorem rolling_avg_char (n : Nat) (rows : List Row) (s it i : Nat) :
    ((scatter (rollingMeanK n) (sortRows rows)).filter (fun p => gqB s it p.1))[i]?
      = (groupRows (sortRows rows) s it)[i]?.map (fun r =>
          (r, some ((((List.range' (i + 1 - n) (min (i + 1) n)).map
                (fun j => (groupVals (sortRows rows) s it).getD j 0)).sum)
              / ((min (i + 1) n : Nat) : Rat)))) := by
  rw [scatter_group_get]
  cases hg : (groupRows (sortRows rows) s it)[i]? with
  | none => rfl
  | some r =>
    have hi : i < (groupRows (sortRows rows) s it).length :=
      (List.getElem?_eq_some_iff.mp hg).1
    have hlen : i < (groupVals (sortRows rows) s it).length := by
      simpa [groupVals, List.length_map] using hi
    simp only [Option.map_some']
    rw [rollingMeanK_getD n _ i hlen, window_eq _ i n hlen]
    simp

theorem rolling_avg_first (n : Nat) (hn : 1 ≤ n) (rows : List Row)
    (s it : Nat) :
    ((scatter (rollingMeanK n) (sortRows rows)).filter (fun p => gqB s it p.1))[0]?
      = (groupRows (sortRows rows) s it)[0]?.map (fun r => (r, some r.sales)) := by
  rw [rolling_avg_char n rows s it 0]
  cases hg : (groupRows (sortRows rows) s it)[0]? with
  | none => rfl
  | some r =>
    have hmin : min (0 + 1) n = 1 := by omega
    have hsub : 0 + 1 - n = 0 := by omega
    simp only [Option.map_some', hmin, hsub]
    simp [List.range', List.getD_eq_getElem?_getD, groupVals,
      List.getElem?_map, hg]

/-- C4: within each (store, item) group of the date-sorted frame, each of
rolling_avg_7d, rolling_avg_15d and rolling_avg_30d at group ordinal i is
the arithmetic mean of the sales values at group rows max(0, i-N+1) .. i (a
trailing row-count window of the last at most N observations); the first row
of every group yields its own sales value rather than a missing value; and
in the spec's scenario the 8th row's rolling_avg_7d is
mean(10,10,10,10,10,10,20) = 80/7. -/
theorem c4_rolling_avg_row_windows :
    (∀ (rows : List Row) (s it i : Nat),
      ((add_rolling_avg_sales_7d rows).filter (fun p => gqB s it p.1))[i]?
        = (groupRows (sortRows rows) s it)[i]?.map (fun r =>
            (r, some ((((List.range' (i + 1 - 7) (min (i + 1) 7)).map
                  (fun j => (groupVals (sortRows rows) s it).getD j 0)).sum)
                / ((min (i + 1) 7 : Nat) : Rat)))))
    ∧ (∀ (rows : List Row) (s it i : Nat),
      ((add_rolling_avg_sales_15d rows).filter (fun p => gqB s it p.1))[i]?
        = (groupRows (sortRows rows) s it)[i]?.map (fun r =>
            (r, some ((((List.range' (i + 1 - 15) (min (i + 1) 15)).map
                  (fun j => (groupVals (sortRows rows) s it).getD j 0)).sum)
                / ((min (i + 1) 15 : Nat) : Rat)))))
    ∧ (∀ (rows : List Row) (s it i : Nat),
      ((add_rolling_avg_sales_30d rows).filter (fun p => gqB s it p.1))[i]?
        = (groupRows (sortRows rows) s it)[i]?.map (fun r =>
            (r, some ((((List.range' (i + 1 - 30) (min (i + 1) 30)).map
                  (fun j => (groupVals (sortRows rows) s it).getD j 0)).sum)
                / ((min (i + 1) 30 : Nat) : Rat)))))
    ∧ (∀ (rows : List Row) (s it : Nat),
        ((add_rolling_avg_sales_7d rows).filter (fun p => gqB s it p.1))[0]?
          = (groupRows (sortRows rows) s it)[0]?.map (fun r => (r, some r.sales))
        ∧ ((add_rolling_avg_sales_15d rows).filter (fun p => gqB s it p.1))[0]?
          = (groupRows (sortRows rows) s it)[0]?.map (fun r => (r, some r.sales))
        ∧ ((add_rolling_avg_sales_30d rows).filter (fun p => gqB s it p.1))[0]?
          = (groupRows (sortRows rows) s it)[0]?.map (fun r => (r, some r.sales)))
    ∧ ((add_rolling_avg_sales_7d scenarioRows).filter (fun p => gqB 1 100 p.1))[7]?
        = some (⟨1, 100, ⟨2024, 1, 8⟩, 20⟩, some (80 / 7)) :=
  ⟨fun rows s it i => rolling_avg_char 7 rows s it i,
   fun rows s it i => rolling_avg_char 15 rows s it i,
   fun rows s it i => rolling_avg_char 30 rows s it i,
   fun rows s it =>
     ⟨rolling_avg_first 7 (by omega) rows s it,
      rolling_avg_first 15 (by omega) rows s it,
      rolling_avg_first 30 (by omega) rows s it⟩,
   by
     have hsort : sortRows scenarioRows = scenarioRows :=
       sortRows_of_sorted (by decide)
     have h := rolling_avg_char 7 scenarioRows 1 100 7
     rw [hsort] at h
     refine h.trans ?_
     rw [show (groupRows scenarioRows 1 100)[7]?
         = some (⟨1, 100, ⟨2024, 1, 8⟩, 20⟩ : Row) from by decide]
     simp only [Option.map_some']
     rw [show groupVals scenarioRows 1 100
         = [10, 10, 10, 10, 10, 10, 10, 20, 20, 20] from by decide]
     rw [show List.range' (7 + 1 - 7) (min (7 + 1) 7) = [1, 2, 3, 4, 5, 6, 7]
         from by decide]
     rw [show ([1, 2, 3, 4, 5, 6, 7].map (fun j =>
           ([10, 10, 10, 10, 10, 10, 10, 20, 20, 20] : List Rat).getD j 0))
         = [10, 10, 10, 10, 10, 10, 20] from by decide]
     norm_num⟩

theorem lag_char (n : Nat) (rows : List Row) (s it i : Nat) :
    ((scatter (shiftK n) (sortRows rows)).filter (fun p => gqB s it p.1))[i]?
      = (groupRows (sortRows rows) s it)[i]?.map (fun r =>
          (r, if i < n then none
              else some ((groupVals (sortRows rows) s it).getD (i - n) 0))) := by
  rw [scatter_group_get]
  cases hg : (groupRows (sortRows rows) s it)[i]? with
  | none => rfl
  | some r =>
    have hi : i < (groupRows (sortRows rows) s it).length :=
      (List.getElem?_eq_some_iff.mp hg).1
    have hlen : i < (groupVals (sortRows rows) s it).length := by
      simpa [groupVals, List.length_map] using hi
    simp only [Option.map_some']
    rw [shiftK_getD n _ i hlen]

/-- C7: within each (store, item) group of the date-sorted frame, the lag
features sales_lag_1d, sales_lag_7d and last_year_same_period_sales (the
365-observation lag) at group ordinal i carry the sales value at group row
i - N, and are missing for the first N rows of the group; in particular
sales_lag_1d is missing at i = 0, and in the spec's scenario sales_lag_7d on
the 8th row is 10, the value of 2024-01-01. -/
theorem c7_lag_row_offsets :
    (∀ (rows : List Row) (s it i : Nat),
      ((add_sales_lag_1d rows).filter (fun p => gqB s it p.1))[i]?
        = (groupRows (sortRows rows) s it)[i]?.map (fun r =>
            (r, if i < 1 then none
                else some ((groupVals (sortRows rows) s it).getD (i - 1) 0))))
    ∧ (∀ (rows : List Row) (s it i : Nat),
      ((add_sales_lag_7d rows).filter (fun p => gqB s it p.1))[i]?
        = (groupRows (sortRows rows) s it)[i]?.map (fun r =>
            (r, if i < 7 then none
                else some ((groupVals (sortRows rows) s it).getD (i - 7) 0))))
    ∧ (∀ (rows : List Row) (s it i : Nat),
      ((add_last_year_same_period_sales rows).filter (fun p => gqB s it p.1))[i]?
        = (groupRows (sortRows rows) s it)[i]?.map (fun r =>
            (r, if i < 365 then none
                else some ((groupVals (sortRows rows) s it).getD (i - 365) 0))))
    ∧ (∀ (rows : List Row) (s it : Nat),
        ((add_sales_lag_1d rows).filter (fun p => gqB s it p.1))[0]?
          = (groupRows (sortRows rows) s it)[0]?.map (fun r => (r, none)))
    ∧ ((add_sales_lag_7d scenarioRows).filter (fun p => gqB 1 100 p.1))[7]?
        = some (⟨1, 100, ⟨2024, 1, 8⟩, 20⟩, some 10) :=
  ⟨fun rows s it i => lag_char 1 rows s it i,
   fun rows s it i => lag_char 7 rows s it i,
   fun rows s it i => lag_char 365 rows s it i,
   fun rows s it => by
     have h := lag_char 1 rows s it 0
     simpa using h,
   by decide⟩

theorem list_sum_const {v : Rat} : ∀ (w : List Rat), (∀ x ∈ w, x = v) →
    w.sum = (w.length : Rat) * v := by
  intro w
  induction w with
  | nil => intro _; simp
  | cons x xs ih =>
    intro h
    rw [List.sum_cons, ih (fun y hy => h y (List.mem_cons_of_mem x hy)),
      h x (List.mem_cons_self x xs)]
    simp only [List.length_cons]
    push_cast
    ring

theorem std_char (rows : List Row) (s it i : Nat) :
    ((scatter (sampleVarK 15) (sortRows rows)).filter (fun p => gqB s it p.1))[i]?
      = (groupRows (sortRows rows) s it)[i]?.map (fun r =>
          (r, if min (i + 1) 15 ≤ 1 then none
              else some
                (((((List.range' (i + 1 - 15) (min (i + 1) 15)).map
                      (fun j => (groupVals (sortRows rows) s it).getD j 0)).map
                    (fun x =>
                      (x - ((List.range' (i + 1 - 15) (min (i + 1) 15)).map
                          (fun j => (groupVals (sortRows rows) s it).getD j 0)).sum
                        / ((min (i + 1) 15 : Nat) : Rat)) ^ 2)).sum)
                  / ((min (i + 1) 15 - 1 : Nat) : Rat)))) := by
  rw [scatter_group_get]
  cases hg : (groupRows (sortRows rows) s it)[i]? with
  | none => rfl
  | some r =>
    have hi : i < (groupRows (sortRows rows) s it).length :=
      (List.getElem?_eq_some_iff.mp hg).1
    have hlen : i < (groupVals (sortRows rows) s it).length := by
      simpa [groupVals, List.length_map] using hi
    simp only [Option.map_some']
    rw [sampleVarK_getD 15 _ i hlen, window_length _ i 15 hlen,
      window_eq _ i 15 hlen]

/-- C6: the std_dev_sales_15d column (modelled by its square, the sample
variance with ddof = 1, which has the same missing entries and the same
zeroes as the standard deviation itself) is the sample dispersion of the
trailing 15-observation row-count window of the group; it is missing — not
zero — at the first row of every group, where the window holds a single
observation; and on a group of constant sales it equals 0 at every row from
the second on. -/
theorem c6_std_dev_sample :
    (∀ (rows : List Row) (s it i : Nat),
      ((add_std_dev_sales_15d_sq rows).filter (fun p => gqB s it p.1))[i]?
        = (groupRows (sortRows rows) s it)[i]?.map (fun r =>
            (r, if min (i + 1) 15 ≤ 1 then none
                else some
                  (((((List.range' (i + 1 - 15) (min (i + 1) 15)).map
                        (fun j => (groupVals (sortRows rows) s it).getD j 0)).map
                      (fun x =>
                        (x - ((List.range' (i + 1 - 15) (min (i + 1) 15)).map
                            (fun j => (groupVals (sortRows rows) s it).getD j 0)).sum
                          / ((min (i + 1) 15 : Nat) : Rat)) ^ 2)).sum)
                    / ((min (i + 1) 15 - 1 : Nat) : Rat)))))
    ∧ (∀ (rows : List Row) (s it : Nat),
        ((add_std_dev_sales_15d_sq rows).filter (fun p => gqB s it p.1))[0]?
          = (groupRows (sortRows rows) s it)[0]?.map (fun r => (r, none)))
    ∧ (∀ (rows : List Row) (s it : Nat) (v : Rat) (i : Nat),
        (∀ r ∈ groupRows (sortRows rows) s it, r.sales = v) → 1 ≤ i →
        ((add_std_dev_sales_15d_sq rows).filter (fun p => gqB s it p.1))[i]?
          = (groupRows (sortRows rows) s it)[i]?.map (fun r => (r, some 0))) := by
  refine ⟨fun rows s it i => std_char rows s it i, ?_, ?_⟩
  · intro rows s it
    have h := std_char rows s it 0
    simpa using h
  · intro rows s it v i hconst hi1
    refine (std_char rows s it i).trans ?_
    cases hg : (groupRows (sortRows rows) s it)[i]? with
    | none => rfl
    | some r =>
      have hi : i < (groupRows (sortRows rows) s it).length :=
        (List.getElem?_eq_some_iff.mp hg).1
      have hlen : i < (groupVals (sortRows rows) s it).length := by
        simpa [groupVals, List.length_map] using hi
      have hmin2 : ¬ (min (i + 1) 15 ≤ 1) := by omega
      simp only [Option.map_some', if_neg hmin2]
      have hW : ∀ x ∈ (List.range' (i + 1 - 15) (min (i + 1) 15)).map
          (fun j => (groupVals (sortRows rows) s it).getD j 0), x = v := by
        intro x hx
        rcases List.mem_map.mp hx with ⟨j, hj, rfl⟩
        have hjr := List.mem_range'_1.mp hj
        have hjlt : j < (groupVals (sortRows rows) s it).length := by omega
        have hjg : j < (groupRows (sortRows rows) s it).length := by
          simpa [groupVals, List.length_map] using hjlt
        rw [List.getD_eq_getElem _ 0 hjlt]
        have hx2 : (groupVals (sortRows rows) s it)[j]
            = ((groupRows (sortRows rows) s it).get ⟨j, hjg⟩).sales := by
          simp [groupVals]
        rw [hx2]
        exact hconst _ (List.get_mem _ _ _)
      have hsum := list_sum_const _ hW
      rw [List.length_map, List.length_range'] at hsum
      have hne : ((min (i + 1) 15 : Nat) : Rat) ≠ 0 := by
        rw [Nat.cast_ne_zero]
        omega
      have hmean : ((List.range' (i + 1 - 15) (min (i + 1) 15)).map
            (fun j => (groupVals (sortRows rows) s it).getD j 0)).sum
          / ((min (i + 1) 15 : Nat) : Rat) = v := by
        rw [hsum]
        exact mul_div_cancel_left₀ v hne
      have hzero : ∀ y ∈ ((List.range' (i + 1 - 15) (min (i + 1) 15)).map
            (fun j => (groupVals (sortRows rows) s it).getD j 0)).map
          (fun x =>
            (x - ((List.range' (i + 1 - 15) (min (i + 1) 15)).map
                (fun j => (groupVals (sortRows rows) s it).getD j 0)).sum
              / ((min (i + 1) 15 : Nat) : Rat)) ^ 2), y = (0 : Rat) := by
        intro y hy
        rcases List.mem_map.mp hy with ⟨x, hxW, rfl⟩
        rw [hmean, hW x hxW]
        simp
      have hS := list_sum_const _ hzero
      rw [hS]
      simp

/-- Witness for C6: a single-group constant series of three days of sales 5;
the third row's column value is 0 (and the hypotheses of the constant-series
case hold by evaluation). -/
theorem c6_std_dev_sample_witness :
    (∀ r ∈ groupRows (sortRows
        [ ⟨1, 1, ⟨2024, 1, 1⟩, 5⟩, ⟨1, 1, ⟨2024, 1, 2⟩, 5⟩,
          ⟨1, 1, ⟨2024, 1, 3⟩, 5⟩ ]) 1 1, r.sales = 5)
    ∧ 1 ≤ 2
    ∧ ((add_std_dev_sales_15d_sq
          [ ⟨1, 1, ⟨2024, 1, 1⟩, 5⟩, ⟨1, 1, ⟨2024, 1, 2⟩, 5⟩,
            ⟨1, 1, ⟨2024, 1, 3⟩, 5⟩ ]).filter (fun p => gqB 1 1 p.1))[2]?
        = some (⟨1, 1, ⟨2024, 1, 3⟩, 5⟩, some 0) :=
  ⟨by decide, by decide,
   (c6_std_dev_sample.2.2
      [ ⟨1, 1, ⟨2024, 1, 1⟩, 5⟩, ⟨1, 1, ⟨2024, 1, 2⟩, 5⟩,
        ⟨1, 1, ⟨2024, 1, 3⟩, 5⟩ ] 1 1 5 2 (by decide) (by decide)).trans
     (by decide)⟩

theorem list_any_congr {α : Type} {p q : α → Bool} :
    ∀ {l : List α}, (∀ a ∈ l, p a = q a) → l.any p = l.any q
  | [], _ => rfl
  | a :: l, h => by
    rw [List.any_cons, List.any_cons, h a (List.mem_cons_self a l),
      list_any_congr (fun b hb => h b (List.mem_cons_of_mem a hb))]

theorem list_any_map {α β : Type} (f : α → β) (p : β → Bool) :
    ∀ (l : List α), (l.map f).any p = l.any (fun a => p (f a))
  | [] => rfl
  | a :: l => by
    rw [List.map_cons, List.any_cons, List.any_cons, list_any_map f p l]

theorem ramadanObs_cons (se : Date × Date) (rest : List (Date × Date))
    (rows : List Row) :
    ramadanObs (se :: rest) rows
      = (rows.filter (fun r => dateLeB se.1 r.date && dateLeB r.date se.2)).map
          (fun r => (r, se.1.year)) ++ ramadanObs rest rows := by
  simp [ramadanObs, List.flatMap_cons]

theorem inAnchoredRange_cons (se : Date × Date) (rest : List (Date × Date))
    (d : Date) (y : Nat) :
    inAnchoredRange (se :: rest) d y
      = ((se.1.year == y && dateLeB se.1 d && dateLeB d se.2)
          || inAnchoredRange rest d y) := by
  simp [inAnchoredRange, List.any_cons]

theorem ramadanObs_no_key {ranges : List (Date × Date)} {y : Nat}
    (h : ∀ se ∈ ranges, se.1.year ≠ y) (rows : List Row) (s it : Nat) :
    ∀ p ∈ ramadanObs ranges rows, ramadanKeyB s it y p = false := by
  intro p hp
  rw [ramadanObs, List.mem_flatMap] at hp
  obtain ⟨se, hse, hpse⟩ := hp
  rcases List.mem_map.mp hpse with ⟨r, _, rfl⟩
  simp only [ramadanKeyB]
  rw [beq_eq_false_iff_ne.mpr (h se hse)]
  simp

theorem inAnchoredRange_none {ranges : List (Date × Date)} {y : Nat}
    (h : ∀ se ∈ ranges, se.1.year ≠ y) (d : Date) :
    inAnchoredRange ranges d y = false := by
  rw [inAnchoredRange, List.any_eq_false]
  intro se hse
  rw [beq_eq_false_iff_ne.mpr (h se hse)]
  simp

theorem ramadan_bridge {ranges : List (Date × Date)}
    (hpw : ranges.Pairwise (fun a b => a.1.year ≠ b.1.year))
    (rows : List Row) (s it y : Nat) :
    ramadan_sum ranges rows s it y = groupAnchorSum ranges rows s it y
    ∧ has_ramadan_key ranges rows s it y
      = rows.any (fun q => q.store == s && q.item == it
          && inAnchoredRange ranges q.date y) := by
  induction ranges with
  | nil =>
    constructor
    · simp [ramadan_sum, ramadanObs, groupAnchorSum, inAnchoredRange]
    · simp [has_ramadan_key, ramadanObs, inAnchoredRange]
  | cons se rest ih =>
    rw [List.pairwise_cons] at hpw
    obtain ⟨hse, hrest⟩ := hpw
    have ihr := ih hrest
    by_cases hy : se.1.year = y
    · have hnone : ∀ b ∈ rest, b.1.year ≠ y := by
        intro b hb
        rw [← hy]
        exact (hse b hb).symm
      have htail : (ramadanObs rest rows).filter (ramadanKeyB s it y) = [] :=
        List.filter_eq_nil_iff.mpr (fun p hp => by
          rw [ramadanObs_no_key hnone rows s it p hp]; simp)
      have hcongr : ∀ r ∈ rows,
          (r.store == s && r.item == it && inAnchoredRange (se :: rest) r.date y)
            = ((r.store == s && r.item == it)
                && (dateLeB se.1 r.date && dateLeB r.date se.2)) := by
        intro r _
        rw [inAnchoredRange_cons, inAnchoredRange_none hnone, hy]
        simp [Bool.and_assoc]
      constructor
      · rw [ramadan_sum, ramadanObs_cons, List.filter_append, htail,
          List.append_nil, List.filter_map, List.filter_filter, List.map_map]
        rw [groupAnchorSum, List.filter_congr hcongr]
        simp [Function.comp, ramadanKeyB, hy]
        rfl
      · rw [has_ramadan_key, ramadanObs_cons, List.any_append,
          list_any_map, List.any_filter]
        have htailany : (ramadanObs rest rows).any (ramadanKeyB s it y) = false := by
          rw [List.any_eq_false]
          intro p hp
          rw [ramadanObs_no_key hnone rows s it p hp]
          simp
        rw [htailany, Bool.or_false]
        rw [list_any_congr hcongr]
        apply list_any_congr
        intro r _
        simp only [ramadanKeyB, hy]
        simp [Bool.and_comm]
    · have hsefalse : (se.1.year == y) = false := beq_eq_false_iff_ne.mpr hy
      have hhead : ∀ r : Row, ramadanKeyB s it y (r, se.1.year) = false := by
        intro r
        simp [ramadanKeyB, hsefalse]
      have hcongr : ∀ r ∈ rows,
          (r.store == s && r.item == it && inAnchoredRange (se :: rest) r.date y)
            = (r.store == s && r.item == it && inAnchoredRange rest r.date y) := by
        intro r _
        rw [inAnchoredRange_cons, hsefalse]
        simp
      constructor
      · rw [ramadan_sum, ramadanObs_cons, List.filter_append, List.filter_map]
        have : ((rows.filter (fun r => dateLeB se.1 r.date && dateLeB r.date se.2)).filter
            (ramadanKeyB s it y ∘ (fun r => (r, se.1.year)))) = [] := by
          rw [List.filter_eq_nil_iff]
          intro r _
          simp only [Function.comp]
          rw [hhead r]
          simp
        rw [this]
        simp only [List.map_nil, List.nil_append]
        rw [groupAnchorSum, List.filter_congr hcongr]
        exact ihr.1
      · rw [has_ramadan_key, ramadanObs_cons, List.any_append, list_any_map]
        have : (rows.filter (fun r => dateLeB se.1 r.date && dateLeB r.date se.2)).any
            (fun a => ramadanKeyB s it y (a, se.1.year)) = false := by
          rw [List.any_eq_false]
          intro r _
          rw [hhead r]
          simp
        rw [this, Bool.false_or]
        rw [list_any_congr hcongr]
        exact ihr.2

/-- C1 (amended): with the function's own default table of 12 Ramadan
ranges anchored at years 2024-2035 (which is not the table backing
is_ramadan), each output row whose group has an observation inside a default
range anchored at the row's own calendar year receives the sum of the sales
of all of the group's observations inside ranges anchored at that year, and
every other row receives a missing value. -/
theorem c1_ramadan_total_amended (rows : List Row) (i : Nat) :
    (add_total_sales_last_ramadan sales_ramadan_ranges rows)[i]?
      = (rows[i]?).map (fun r =>
          (r, if rows.any (fun q => q.store == r.store && q.item == r.item
                  && inAnchoredRange sales_ramadan_ranges q.date r.date.year)
              then some (groupAnchorSum sales_ramadan_ranges rows
                  r.store r.item r.date.year)
              else none)) := by
  have hpw : sales_ramadan_ranges.Pairwise (fun a b => a.1.year ≠ b.1.year) := by
    decide
  rw [add_total_sales_last_ramadan, List.getElem?_map]
  cases hg : rows[i]? with
  | none => rfl
  | some r =>
    simp only [Option.map_some']
    have hb := ramadan_bridge hpw rows r.store r.item r.date.year
    rw [hb.2, hb.1]

/-- Counterexample for C1: a single transaction on 2020-05-01 (sales 5).
That date lies inside the is_ramadan range anchored at its own year 2020,
and the per-group sum over the is_ramadan table at anchor 2020 is 5, so the
claim prescribes the value some 5 for this row; the code's default table has
no range anchored at 2020 and the operation leaves the row missing. -/
theorem c1_ramadan_total_counterexample :
    add_total_sales_last_ramadan sales_ramadan_ranges
        [⟨1, 1, ⟨2020, 5, 1⟩, 5⟩]
      = [(⟨1, 1, ⟨2020, 5, 1⟩, 5⟩, none)]
    ∧ inAnchoredRange calendar_ramadan_ranges ⟨2020, 5, 1⟩ 2020 = true
    ∧ groupAnchorSum calendar_ramadan_ranges [⟨1, 1, ⟨2020, 5, 1⟩, 5⟩] 1 1 2020 = 5
    ∧ some (5 : Rat) ≠ (none : Option Rat) := by
  refine ⟨by decide, by decide, ?_, by decide⟩
  rw [groupAnchorSum,
    show ([⟨1, 1, ⟨2020, 5, 1⟩, 5⟩] : List Row).filter
        (fun r => r.store == 1 && r.item == 1
          && inAnchoredRange calendar_ramadan_ranges r.date 2020)
      = [⟨1, 1, ⟨2020, 5, 1⟩, 5⟩] from by decide]
  simp

theorem filter_eq_of_nodup {fx : List (Date × Rat)}
    (hnd : (fx.map Prod.fst).Nodup) (d : Date) :
    fx.filter (fun p => p.1 == d) = (fx.find? (fun p => p.1 == d)).toList := by
  induction fx with
  | nil => rfl
  | cons q qs ih =>
    rw [List.map_cons, List.nodup_cons] at hnd
    obtain ⟨hq, hqs⟩ := hnd
    rw [List.filter_cons, List.find?_cons]
    cases hqd : (q.1 == d) with
    | true =>
      have hnil : qs.filter (fun p => p.1 == d) = [] := by
        rw [List.filter_eq_nil_iff]
        intro p hp hpd
        apply hq
        rw [List.mem_map]
        exact ⟨p, hp, by
          rw [beq_iff_eq] at hpd hqd
          rw [hpd, hqd]⟩
      simp [hqd, hnil]
    | false =>
      simp [hqd, ih hqs]

theorem mergeFx_eq_map {fx : List (Date × Rat)}
    (hnd : (fx.map Prod.fst).Nodup) (dfDates : List Date) :
    mergeFx dfDates fx = dfDates.map (fun d => (d, lookupFx fx d)) := by
  induction dfDates with
  | nil => rfl
  | cons d ds ih =>
    rw [mergeFx, List.flatMap_cons, List.map_cons]
    rw [mergeFx] at ih
    rw [ih]
    rw [filter_eq_of_nodup hnd d]
    cases hf : fx.find? (fun p => p.1 == d) with
    | none => simp [lookupFx, hf]
    | some p => simp [lookupFx, hf]

theorem ffillCol_getElem? :
    ∀ (l : List (Date × Option Rat)) (acc : Option Rat) (i : Nat),
    (ffillCol acc l)[i]?
      = (l[i]?).map (fun p => (p.1,
          (l.take (i + 1)).foldl (fun a q =>
            match q.2 with
            | some r => some r
            | none => a) acc))
  | [], acc, i => by simp [ffillCol]
  | (d, some r) :: rest, acc, 0 => by simp [ffillCol]
  | (d, some r) :: rest, acc, i + 1 => by
    simp [ffillCol, ffillCol_getElem? rest (some r) i]
  | (d, none) :: rest, acc, 0 => by simp [ffillCol]
  | (d, none) :: rest, acc, i + 1 => by
    simp [ffillCol, ffillCol_getElem? rest acc i]

theorem fx_column_char {dfDates : List Date} {fx : List (Date × Rat)}
    (hnd : (fx.map Prod.fst).Nodup) (i : Nat) :
    (add_fx_rate dfDates fx)[i]?
      = (dfDates[i]?).map (fun d => (d, lastMatchedRate fx (dfDates.take (i + 1)))) := by
  rw [add_fx_rate, mergeFx_eq_map hnd, ffillCol_getElem?, List.getElem?_map]
  cases hg : dfDates[i]? with
  | none => rfl
  | some d =>
    simp only [Option.map_some']
    rw [← List.map_take, List.foldl_map]
    rfl

/-- C8 (amended): the FX adapter left-joins on exact date equality keeping
every transaction row (one output row per transaction row when the FX dates
are pairwise distinct) and then forward-fills the joined column in frame
order, not chronologically: row i receives the rate of the last row at
position ≤ i (in the frame's own row order) whose date has an exact FX
match, and stays missing when no such earlier-positioned row exists.  Only
when the transaction table is sorted by date ascending does this coincide
with carrying the most recent earlier known rate. -/
theorem c8_fx_ffill_amended : ∀ (dfDates : List Date) (fx : List (Date × Rat)),
    (fx.map Prod.fst).Nodup → ∀ i : Nat,
    (add_fx_rate dfDates fx)[i]?
      = (dfDates[i]?).map (fun d => (d, lastMatchedRate fx (dfDates.take (i + 1)))) :=
  fun _ _ hnd i => fx_column_char hnd i

/-- Witness for C8 at a three-row frame with one known rate on the middle
date: the third row has no exact match and carries the rate of the most
recent earlier row that did. -/
theorem c8_fx_ffill_amended_witness :
    (([((⟨2024, 1, 2⟩ : Date), (40 : Rat))].map Prod.fst).Nodup)
    ∧ (add_fx_rate [⟨2024, 1, 1⟩, ⟨2024, 1, 2⟩, ⟨2024, 1, 3⟩]
        [(⟨2024, 1, 2⟩, 40)])[2]?
        = some ((⟨2024, 1, 3⟩ : Date), some (40 : Rat)) :=
  ⟨by decide, by
    have h := c8_fx_ffill_amended [⟨2024, 1, 1⟩, ⟨2024, 1, 2⟩, ⟨2024, 1, 3⟩]
      [(⟨2024, 1, 2⟩, 40)] (by decide) 2
    rw [h]
    decide⟩

/-- Counterexample for C8: the frame [2024-01-05, 2024-01-01] with a single
FX rate 50 on 2024-01-05.  The row dated 2024-01-01 precedes every known FX
date, so under the claim it must remain missing; the code forward-fills in
row order and assigns it 50. -/
theorem c8_fx_ffill_counterexample :
    add_fx_rate [⟨2024, 1, 5⟩, ⟨2024, 1, 1⟩] [(⟨2024, 1, 5⟩, 50)]
      = [(⟨2024, 1, 5⟩, some 50), (⟨2024, 1, 1⟩, some 50)]
    ∧ dateLtB ⟨2024, 1, 1⟩ ⟨2024, 1, 5⟩ = true
    ∧ some (50 : Rat) ≠ (none : Option Rat) := by
  refine ⟨by decide, by decide, by decide⟩

theorem find?_eq_of_nodup {fx : List (Date × Rat)}
    (hnd : (fx.map Prod.fst).Nodup) {p : Date × Rat} (hp : p ∈ fx) :
    fx.find? (fun q => q.1 == p.1) = some p := by
  induction fx with
  | nil => cases hp
  | cons q qs ih =>
    rw [List.map_cons, List.nodup_cons] at hnd
    obtain ⟨hq, hqs⟩ := hnd
    rcases List.mem_cons.mp hp with rfl | hp'
    · rw [List.find?_cons]
      simp
    · rw [List.find?_cons]
      cases hqp : (q.1 == p.1) with
      | true =>
        exfalso
        apply hq
        rw [List.mem_map]
        exact ⟨p, hp', (beq_iff_eq.mp hqp).symm⟩
      | false => simpa using ih hqs hp'

theorem lastMatchedRate_append_match {fx : List (Date × Rat)}
    (dates : List Date) (d : Date) (r : Rat) (h : lookupFx fx d = some r) :
    lastMatchedRate fx (dates ++ [d]) = some r := by
  rw [lastMatchedRate, List.foldl_append]
  simp [h]

/-- C9: after the FX join, every output row whose date exactly matches an
FX-table row (with pairwise-distinct FX dates) carries that FX row's
original rate unchanged — the forward-fill never alters an exactly matched
value. -/
theorem c9_fx_roundtrip : ∀ (dfDates : List Date) (fx : List (Date × Rat)),
    (fx.map Prod.fst).Nodup →
    ∀ (i : Nat) (p : Date × Rat), p ∈ fx → dfDates[i]? = some p.1 →
      (add_fx_rate dfDates fx)[i]? = some (p.1, some p.2) := by
  intro df fx hnd i p hp hd
  rw [fx_column_char hnd i, hd]
  simp only [Option.map_some']
  have htake : df.take (i + 1) = df.take i ++ [p.1] := by
    rw [List.take_succ, hd]
    rfl
  rw [htake, lastMatchedRate_append_match _ _ p.2 (by
    rw [lookupFx, find?_eq_of_nodup hnd hp]
    rfl)]

/-- Witness for C9: a two-row frame whose first row's date exactly matches
the first FX entry; the joined column carries that entry's original rate. -/
theorem c9_fx_roundtrip_witness :
    (([((⟨2024, 1, 2⟩ : Date), (40 : Rat)),
        ((⟨2024, 1, 6⟩ : Date), (30 : Rat))].map Prod.fst).Nodup)
    ∧ (((⟨2024, 1, 2⟩ : Date), (40 : Rat))
        ∈ [((⟨2024, 1, 2⟩ : Date), (40 : Rat)),
           ((⟨2024, 1, 6⟩ : Date), (30 : Rat))])
    ∧ ([⟨2024, 1, 2⟩, ⟨2024, 1, 3⟩] : List Date)[0]?
        = some (⟨2024, 1, 2⟩ : Date)
    ∧ (add_fx_rate [⟨2024, 1, 2⟩, ⟨2024, 1, 3⟩]
        [(⟨2024, 1, 2⟩, 40), (⟨2024, 1, 6⟩, 30)])[0]?
        = some ((⟨2024, 1, 2⟩ : Date), some (40 : Rat)) :=
  ⟨by decide, by decide, by decide,
   c9_fx_roundtrip [⟨2024, 1, 2⟩, ⟨2024, 1, 3⟩]
     [(⟨2024, 1, 2⟩, 40), (⟨2024, 1, 6⟩, 30)] (by decide) 0
     ((⟨2024, 1, 2⟩ : Date), (40 : Rat)) (by decide) (by decide)⟩

/-- Counterexample for C10: an input table that already carries a column
named year.  add_total_sales_last_ramadan assigns its helper column year
over it, then drops year after the merge, so the input column year is gone
from the output and the output is not the input schema plus the new column. -/
theorem c10_schema_counterexample :
    total_sales_last_ramadan_cols
        ["Store No_", "Item No_", "Date", "Net Amount", "year"]
        "total_sales_last_ramadan"
      = ["Store No_", "Item No_", "Date", "Net Amount", "total_sales_last_ramadan"]
    ∧ "year" ∈ (["Store No_", "Item No_", "Date", "Net Amount", "year"] : List String)
    ∧ total_sales_last_ramadan_cols
        ["Store No_", "Item No_", "Date", "Net Amount", "year"]
        "total_sales_last_ramadan"
      ≠ ["Store No_", "Item No_", "Date", "Net Amount", "year"]
          ++ ["total_sales_last_ramadan"] := by
  refine ⟨by decide, by decide, by decide⟩

/-- C10 (amended): every single-assignment feature operation appends exactly
its one output column provided that name is not already an input column (an
existing column of the same name would be overwritten in place), and
add_total_sales_last_ramadan appends exactly its output column provided the
input additionally contains neither of the helper names year and
ramadan_year and the output name is distinct from them. -/
theorem c10_schema_amended :
    (∀ (cols : List String) (c : String), c ∉ cols →
        feature_op_cols cols c = cols ++ [c])
    ∧ (∀ (cols : List String) (c : String), c ∉ cols → "year" ∉ cols →
        "ramadan_year" ∉ cols → c ≠ "year" → c ≠ "ramadan_year" →
        total_sales_last_ramadan_cols cols c = cols ++ [c]) := by
  constructor
  · intro cols c hc
    rw [feature_op_cols, setCol, if_neg hc]
  · intro cols c hc hy hr hcy hcr
    rw [total_sales_last_ramadan_cols, setCol, if_neg hy]
    rw [dropCols, List.filter_append, List.filter_append]
    have h1 : cols.filter
        (fun x => !(["year", "ramadan_year"] : List String).contains x) = cols := by
      rw [List.filter_eq_self]
      intro a ha
      have hay : a ≠ "year" := fun h => hy (h ▸ ha)
      have har : a ≠ "ramadan_year" := fun h => hr (h ▸ ha)
      simp [hay, har]
    have h2 : (["year"] : List String).filter
        (fun x => !(["year", "ramadan_year"] : List String).contains x) = [] := by
      decide
    have h3 : (["ramadan_year", c] : List String).filter
        (fun x => !(["year", "ramadan_year"] : List String).contains x) = [c] := by
      rw [List.filter_cons, List.filter_cons]
      simp [hcy, hcr]
    rw [h1, h2, h3]
    simp

/-- Witness for C10 on a fresh one-column schema: both schema actions append
exactly the requested column. -/
theorem c10_schema_amended_witness :
    "day_of_week" ∉ (["Date"] : List String)
    ∧ feature_op_cols ["Date"] "day_of_week" = ["Date"] ++ ["day_of_week"]
    ∧ "total_sales_last_ramadan" ∉ (["Date"] : List String)
    ∧ total_sales_last_ramadan_cols ["Date"] "total_sales_last_ramadan"
        = ["Date"] ++ ["total_sales_last_ramadan"] :=
  ⟨by decide, c10_schema_amended.1 ["Date"] "day_of_week" (by decide),
   by decide,
   c10_schema_amended.2 ["Date"] "total_sales_last_ramadan" (by decide)
     (by decide) (by decide) (by decide) (by decide)⟩
